import Mathlib

/-!
Verification of the trade-bot backend (trading ledger, indicator engine,
condition evaluators, backtest simulator, live connection budget).

Numbers are modelled by exact rationals; timestamps by integers.
All definitions are translated from the TypeScript sources:
  - TradingCore                (src/unnamed/part_000 family, tradingCore.ts)
  - TechnicalIndicators        (indicatorService, in tradingService.ts bundle)
  - BacktestingService         (backtestingService.ts)
  - LiveTradingService         (liveTestingService.ts)
  - StrategyManager offsets    (strategyService.ts)
-/

namespace TradeBot

/-- Position side, source union type «long | short». -/
inductive Side where
  | long
  | short
deriving DecidableEq, Repr

/-- A closed trade exactly as pushed by TradingCore.executeExit:
trades.push(\x7bentryTime, exitTime, entryPrice, exitPrice, quantity,
profit, profitPercentage, type\x7d). -/
structure LedgerTrade where
  entryTime : Int
  exitTime : Int
  entryPrice : ℚ
  exitPrice : ℚ
  quantity : ℚ
  profit : ℚ
  profitPercentage : ℚ
  type : Side
deriving DecidableEq, Repr

/-- Open-position record of TradingCore.position. -/
structure Position where
  inPosition : Bool
  entryPrice : ℚ
  quantity : ℚ
  side : Side
deriving DecidableEq, Repr

/-- Mutable state of a TradingCore object: initialBalance, currentBalance,
trades, equity, drawdowns, position. -/
structure TCState where
  initialBalance : ℚ
  currentBalance : ℚ
  trades : List LedgerTrade
  equity : List ℚ
  drawdowns : List ℚ
  position : Position
deriving DecidableEq, Repr

/-- TradingCore constructor: balance = initialBalance, empty trade log,
equity = [initialBalance], drawdowns = [0], flat position with side long. -/
def mkCore (initialBalance : ℚ) : TCState :=
  { initialBalance := initialBalance
    currentBalance := initialBalance
    trades := []
    equity := [initialBalance]
    drawdowns := [0]
    position := { inPosition := false, entryPrice := 0, quantity := 0, side := Side.long } }

/-- TradingCore.executeEntry.  A thrown exception is modelled as
(some message, unchanged state); success as (none, new state).  The throw in
the source happens before any mutation, so the failing state is the input
state.  The side is hard-coded to long by the source. -/
def executeEntry (s : TCState) (_timestamp : Int) (price quantity : ℚ) :
    Option String × TCState :=
  if s.position.inPosition then
    (some "Already in position", s)
  else
    (none, { s with position :=
      { inPosition := true, entryPrice := price, quantity := quantity, side := Side.long } })

/-- TradingCore.executeExit.  Computes profit = (price - entryPrice) * quantity,
adds it to the balance, appends one trade whose entryTime and exitTime are both
the timestamp given to executeExit, and resets the position to flat/long. -/
def executeExit (s : TCState) (timestamp : Int) (price : ℚ) :
    Option String × TCState :=
  if !s.position.inPosition then
    (some "Not in position", s)
  else
    let profit := (price - s.position.entryPrice) * s.position.quantity
    let tr : LedgerTrade :=
      { entryTime := timestamp
        exitTime := timestamp
        entryPrice := s.position.entryPrice
        exitPrice := price
        quantity := s.position.quantity
        profit := profit
        profitPercentage := profit / (s.position.entryPrice * s.position.quantity) * 100
        type := s.position.side }
    (none, { s with
      currentBalance := s.currentBalance + profit
      trades := s.trades ++ [tr]
      position := { inPosition := false, entryPrice := 0, quantity := 0, side := Side.long } })

/-- Ledger states reachable through the TradingCore interface: a freshly
constructed core followed by any sequence of successful entries and exits.
Failed operations leave the state unchanged, so they need no constructor. -/
inductive Reachable : TCState → Prop
  | init (b : ℚ) : Reachable (mkCore b)
  | entry {s s' : TCState} {t : Int} {p q : ℚ} :
      Reachable s → executeEntry s t p q = (none, s') → Reachable s'
  | exits {s s' : TCState} {t : Int} {p : ℚ} :
      Reachable s → executeExit s t p = (none, s') → Reachable s'

/-! Indicator engine (TechnicalIndicators, indicatorService). -/

/-- Candle record used by the indicator service (KlineData). -/
structure Kline where
  time : Int
  open_ : ℚ
  high : ℚ
  low : ℚ
  close : ℚ
  volume : ℚ
  closeTime : Int
deriving DecidableEq, Repr

instance : Inhabited Kline := ⟨⟨0, 0, 0, 0, 0, 0, 0⟩⟩

/-- One RSI output point: value plus the aligned candle timestamp. -/
structure RSIResult where
  value : ℚ
  timestamp : Int
deriving DecidableEq, Repr

instance : Inhabited RSIResult := ⟨⟨0, 0⟩⟩

/-- Rounding to two decimal places, modelling Number(value.toFixed(2)) on the
nonnegative RSI values. -/
def round2 (q : ℚ) : ℚ := ((round (q * 100 : ℚ) : ℤ) : ℚ) / 100

/-- One step of the Wilder smoothing loop: the source pushes
(last * (period - 1) + x) / period onto the average array. -/
def pushAvg (period : ℕ) (st : List ℚ × ℚ) (x : ℚ) : List ℚ × ℚ :=
  let a := (st.2 * ((period : ℚ) - 1) + x) / (period : ℚ)
  (st.1 ++ [a], a)

/-- The avgGains/avgLosses arrays built by the for-loop in calculateRSI,
seeded with the first simple average and extended once per remaining delta. -/
def buildAvgs (period : ℕ) (first : ℚ) (xs : List ℚ) : List ℚ :=
  (xs.foldl (pushAvg period) ([first], first)).1

/-- TechnicalIndicators.calculateRSI.  Fails when fewer than period + 1
candles are given; otherwise computes per-candle deltas, splits them into
gains and losses, seeds the averages with the simple mean of the first
period entries, extends them by Wilder smoothing, maps averages to RSI
values (100 when the average loss is 0), rounds to two decimals and aligns
output index i to candle index i + period. -/
def calculateRSI (klines : List Kline) (period : ℕ) :
    Except String (List RSIResult) :=
  if klines.length < period + 1 then
    .error "Insufficient data for RSI calculation"
  else
    let prices := klines.map (·.close)
    let timestamps := klines.map (·.time)
    let changes := List.zipWith (fun a b => a - b) prices.tail prices
    let gains := changes.map (fun c => if 0 < c then c else 0)
    let losses := changes.map (fun c => if c < 0 then |c| else 0)
    let firstAvgGain := (gains.take period).sum / (period : ℚ)
    let firstAvgLoss := (losses.take period).sum / (period : ℚ)
    let avgGains := buildAvgs period firstAvgGain (gains.drop period)
    let avgLosses := buildAvgs period firstAvgLoss (losses.drop period)
    let rsiValues := List.zipWith
      (fun gain loss => if loss = 0 then (100 : ℚ) else 100 - 100 / (1 + gain / loss))
      avgGains avgLosses
    .ok (rsiValues.enum.map (fun p =>
      { value := round2 p.2, timestamp := timestamps.getD (p.1 + period) 0 }))

/-! Specification-side definitions for the RSI claim, written from the words
of the spec (first average = simple mean of the first period deltas,
avg = (avgPrev * (period - 1) + current) / period, RSI = 100 when the average
loss is 0 and 100 - 100 / (1 + avgGain / avgLoss) otherwise). -/

/-- Per-candle close deltas of a candle sequence. -/
def deltasOf (klines : List Kline) : List ℚ :=
  List.zipWith (fun a b => a - b) (klines.map (·.close)).tail (klines.map (·.close))

/-- Gain component of each delta. -/
def gainsOf (klines : List Kline) : List ℚ :=
  (deltasOf klines).map (fun c => if 0 < c then c else 0)

/-- Loss component of each delta (absolute value of negative deltas). -/
def lossesOf (klines : List Kline) : List ℚ :=
  (deltasOf klines).map (fun c => if c < 0 then |c| else 0)

/-- Wilder-smoothed average number k over the series xs: the first value is
the simple mean of the first period entries, and every following value is
(previous * (period - 1) + current entry) / period. -/
def wilderAvg (period : ℕ) (xs : List ℚ) : ℕ → ℚ
  | 0 => (xs.take period).sum / (period : ℚ)
  | k + 1 => (wilderAvg period xs k * ((period : ℚ) - 1) + xs.getD (period + k) 0) / (period : ℚ)

/-- RSI value determined by an average gain and an average loss. -/
def rsiOf (gain loss : ℚ) : ℚ :=
  if loss = 0 then 100 else 100 - 100 / (1 + gain / loss)

/-! Backtesting service (BacktestingService, backtestingService.ts). -/

/-- Input candle of runBacktest (historicalData entries). -/
structure Candle where
  time : Int
  open_ : ℚ
  high : ℚ
  low : ℚ
  close : ℚ
  volume : ℚ
deriving DecidableEq, Repr

instance : Inhabited Candle := ⟨⟨0, 0, 0, 0, 0, 0⟩⟩

/-- A strategy condition: an indicator reference, a comparison keyword, a
literal value and an optional target indicator reference. -/
structure Condition where
  indicator : String
  comparison : String
  value : ℚ
  targetIndicator : Option String
deriving DecidableEq, Repr

/-- Indicator parameters; absent entries model missing JS object fields. -/
structure IndicatorParams where
  period : Option ℕ := none
  fastPeriod : Option ℕ := none
  slowPeriod : Option ℕ := none
  signalPeriod : Option ℕ := none
deriving DecidableEq, Repr

/-- Declared indicator: type keyword plus parameters. -/
structure IndicatorConfig where
  type : String
  params : IndicatorParams
deriving DecidableEq, Repr

/-- Risk management block of a strategy. -/
structure RiskManagement where
  stopLoss : ℚ
  takeProfit : ℚ
  maxPositionSize : ℚ
deriving DecidableEq, Repr

/-- Strategy shape accepted by runBacktest. -/
structure Strategy where
  indicators : List (String × IndicatorConfig)
  entryConditions : List Condition
  exitConditions : List Condition
  riskManagement : RiskManagement
deriving DecidableEq, Repr

/-- JS defaulting idiom «params?.period || d»: undefined and 0 both fall back
to the default. -/
def orFalsy (o : Option ℕ) (d : ℕ) : ℕ :=
  match o with
  | none => d
  | some 0 => d
  | some n => n

/-- Klines synthesized by calculateIndicatorSeries from the close-price
array: every OHLC field is the close and the timestamp is the array index. -/
def mkIndexKlines (closes : List ℚ) : List Kline :=
  closes.enum.map (fun p =>
    { time := (p.1 : Int), open_ := p.2, high := p.2, low := p.2, close := p.2
      volume := 0, closeTime := (p.1 : Int) })

/-- BacktestingService.calculateIndicatorSeries, for strategies whose
declared indicators are RSI.  The other four type keywords delegate to the
external npm package technicalindicators, whose code is not part of this
repository; those branches (and unknown types, which the source rejects) are
modelled as errors.  No claim exercises them: failure claims fire before this
function runs, and success claims are conditional on success. -/
def calculateIndicatorSeries (closes : List ℚ)
    (indicators : List (String × IndicatorConfig)) :
    Except String (List (String × List (List ℚ))) :=
  indicators.foldlM (fun acc nc =>
    let name := nc.1
    let config := nc.2
    if config.type.toLower = "rsi" then
      match calculateRSI (mkIndexKlines closes) (orFalsy config.params.period 14) with
      | .ok rs => .ok (acc ++ [(name, rs.map (fun r => [r.value]))])
      | .error e => .error ("Failed to calculate " ++ name ++ " indicator: " ++ e)
    else
      .error ("Failed to calculate " ++ name ++ " indicator: unmodelled or unknown type "
        ++ config.type)) []

/-- Last-assignment-wins lookup in a context object. -/
def ctxGet (ctx : List (String × ℚ)) (key : String) : Option ℚ :=
  (ctx.reverse.find? (fun p => p.1 = key)).map (·.2)

/-- BacktestingService.createIndicatorContext.  Base keys price/open/high/
low/close/volume come from the candle; every indicator with a value row at
this index contributes its value (single-component rows) or its named
components (macd, bb), and single-component rows at the previous index
contribute a prev_name entry.  Bare array-valued entries for multi-component
rows carry no numeric value and are outside this numeric context model. -/
def createIndicatorContext (index : ℕ)
    (indicators : List (String × List (List ℚ))) (candle : Candle) :
    List (String × ℚ) :=
  let base := [("price", candle.close), ("open", candle.open_), ("high", candle.high),
    ("low", candle.low), ("close", candle.close), ("volume", candle.volume)]
  indicators.foldl (fun acc nv =>
    let name := nv.1
    let values := nv.2
    match values.get? index with
    | none => acc
    | some row =>
      let cur :=
        if row.length = 1 then [(name, row.headD 0)]
        else if name = "macd" then
          [("macd_value", row.getD 0 0), ("macd_signal", row.getD 1 0),
           ("macd_histogram", row.getD 2 0)]
        else if name = "bb" then
          [("bb_upper", row.getD 0 0), ("bb_middle", row.getD 1 0),
           ("bb_lower", row.getD 2 0)]
        else []
      let prev :=
        if 0 < index then
          match values.get? (index - 1) with
          | some prow => if prow.length = 1 then [("prev_" ++ name, prow.headD 0)] else []
          | none => []
        else []
      acc ++ cur ++ prev) base

/-- BacktestingService.getIndicatorValue: a plain context lookup (the
source returns context[indicator] on both branches of its underscore test). -/
def getIndicatorValue (indicator : String) (ctx : List (String × ℚ)) : Option ℚ :=
  ctxGet ctx indicator

/-- BacktestingService.evaluateCondition.  The crossover branches read the
previous reading from context[prev_indicator] and compare it against the
CURRENT target value. -/
def bt_evaluateCondition (comparison : String) (value targetValue : ℚ)
    (ctx : List (String × ℚ)) (indicator : String) : Bool :=
  if comparison = "above" then decide (value > targetValue)
  else if comparison = "below" then decide (value < targetValue)
  else if comparison = "crosses_above" then
    match ctxGet ctx ("prev_" ++ indicator) with
    | some prevValue => decide (prevValue ≤ targetValue) && decide (value > targetValue)
    | none => false
  else if comparison = "crosses_below" then
    match ctxGet ctx ("prev_" ++ indicator) with
    | some prevValue => decide (prevValue ≥ targetValue) && decide (value < targetValue)
    | none => false
  else false

/-- Shared body of checkEntryConditions/checkExitConditions: resolve the
current and target values, evaluate false when either is unresolved. -/
def checkOneCondition (cond : Condition) (ctx : List (String × ℚ)) : Bool :=
  let value := getIndicatorValue cond.indicator ctx
  let targetValue :=
    match cond.targetIndicator with
    | some t => getIndicatorValue t ctx
    | none => some cond.value
  match value, targetValue with
  | some v, some t => bt_evaluateCondition cond.comparison v t ctx cond.indicator
  | _, _ => false

/-- BacktestingService.checkEntryConditions: conjunction over conditions. -/
def checkEntryConditions (conditions : List Condition) (ctx : List (String × ℚ)) : Bool :=
  conditions.all (fun c => checkOneCondition c ctx)

/-- BacktestingService.checkExitConditions: disjunction over conditions. -/
def checkExitConditions (conditions : List Condition) (ctx : List (String × ℚ)) : Bool :=
  conditions.any (fun c => checkOneCondition c ctx)

/-- BacktestingService.updateEquity: push balance plus unrealized profit
when a position is open (plain balance otherwise), then push the drawdown
from the running peak of the equity curve.  The pushed equity value is
equityPoint: balance plus unrealized profit when a position is open. -/
def equityPoint (s : TCState) (currentPrice : ℚ) : ℚ :=
  if s.position.inPosition then
    s.currentBalance + s.position.quantity * (currentPrice - s.position.entryPrice)
  else s.currentBalance

/-- Source updateEquity, continued: the equity and drawdown pushes. -/
def updateEquity (s : TCState) (currentPrice : ℚ) : TCState :=
  let currentEquity := equityPoint s currentPrice
  let equity := s.equity ++ [currentEquity]
  let peak := equity.foldl max currentEquity
  let drawdown := (peak - currentEquity) / peak * 100
  { s with equity := equity, drawdowns := s.drawdowns ++ [drawdown] }

/-- One iteration of the runBacktest loop at candle index i.  In a position:
compute the stop-loss and take-profit thresholds from the entry price, exit
when the low breaches the stop, the high breaches the take-profit, or an exit
condition holds; the exit price is the stop price first, else the take-profit
price, else the close.  Flat: when the entry conditions hold, size the
position (1 percent risk against the stop distance, capped by
maxPositionSize) and enter at the close when the quantity is positive.
Afterwards always update the equity curve with the close. -/
def processCandleCore (strategy : Strategy) (series : List (String × List (List ℚ)))
    (s : TCState) (i : ℕ) (candle : Candle) : TCState :=
  let context := createIndicatorContext i series candle
  if s.position.inPosition then
    let stopLossPrice := s.position.entryPrice * (1 - strategy.riskManagement.stopLoss / 100)
    let takeProfitPrice := s.position.entryPrice * (1 + strategy.riskManagement.takeProfit / 100)
    if candle.low ≤ stopLossPrice ∨ candle.high ≥ takeProfitPrice
        ∨ checkExitConditions strategy.exitConditions context = true then
      let exitPrice :=
        if candle.low ≤ stopLossPrice then stopLossPrice
        else if candle.high ≥ takeProfitPrice then takeProfitPrice
        else candle.close
      (executeExit s candle.time exitPrice).2
    else s
  else
    let shouldEnter := checkEntryConditions strategy.entryConditions context
    if shouldEnter then
      let stopLossPrice := candle.close * (1 - strategy.riskManagement.stopLoss / 100)
      let riskPerTrade := s.currentBalance * (1 / 100)
      let riskPerUnit := candle.close - stopLossPrice
      let sizeCap := s.currentBalance * strategy.riskManagement.maxPositionSize / 100 / candle.close
      let quantity :=
        if riskPerTrade / riskPerUnit ≤ sizeCap then riskPerTrade / riskPerUnit else sizeCap
      if 0 < quantity then (executeEntry s candle.time candle.close quantity).2 else s
    else s

/-- One full iteration of the runBacktest loop: the entry/exit decision of
processCandleCore followed by the equity-curve update with the candle close. -/
def processCandle (strategy : Strategy) (series : List (String × List (List ℚ)))
    (s : TCState) (i : ℕ) (candle : Candle) : TCState :=
  updateEquity (processCandleCore strategy series s i candle) candle.close

/-- Fresh per-run state installed at the top of runBacktest (the reset of
currentBalance, trades, equity, drawdowns and position). -/
def resetState (initialBalance : ℚ) : TCState := mkCore initialBalance

/-- TechnicalIndicators.validateKlineData: fails when fewer candles than
required are given.  The numeric-field check always passes in this model,
where every field is a rational by construction. -/
def validateKlineData (klines : List Kline) (minLength : ℕ) : Except String Unit :=
  if klines.length < minLength then .error "Invalid kline data" else .ok ()

/-- Result record of a backtest run: trades, equity and drawdown curves and
final balance as in the source result object, plus the service object's
position field after the run (finalPosition).  The derived metrics block is
read-only output not referenced by any claim and involves a square root
(Sharpe), so it is not carried here. -/
structure BacktestingResult where
  trades : List LedgerTrade
  equity : List ℚ
  drawdowns : List ℚ
  finalBalance : ℚ
  finalPosition : Position
deriving DecidableEq, Repr

/-- The simulation loop of runBacktest, starting at candle index start:
fold processCandle over the indices start, start+1, ..., data.length - 1. -/
def runLoop (strategy : Strategy) (series : List (String × List (List ℚ)))
    (data : List Candle) (start : ℕ) (s0 : TCState) : TCState :=
  (List.range' start (data.length - start)).foldl
    (fun s i => processCandle strategy series s i (data.getD i default)) s0

/-- BacktestingService.runBacktest: reject fewer than 50 candles, reset the
ledger state, validate the candles, compute the full indicator series up
front, then iterate candle indices from 50 to the end and assemble the
result. -/
def runBacktest (initialBalance : ℚ) (historicalData : List Candle)
    (strategy : Strategy) : Except String BacktestingResult :=
  if historicalData.length < 50 then
    .error "Insufficient historical data for backtesting"
  else
    let s0 := resetState initialBalance
    let klines : List Kline := historicalData.map (fun c =>
      { time := c.time, open_ := c.open_, high := c.high, low := c.low
        close := c.close, volume := c.volume, closeTime := c.time })
    match validateKlineData klines 50 with
    | .error e => .error e
    | .ok _ =>
      match calculateIndicatorSeries (historicalData.map (·.close)) strategy.indicators with
      | .error e => .error e
      | .ok series =>
        let sF := runLoop strategy series historicalData 50 s0
        .ok { trades := sF.trades, equity := sF.equity, drawdowns := sF.drawdowns
              finalBalance := sF.currentBalance, finalPosition := sF.position }

/-- StrategyManager.getIndicatorOffsets (strategyService.ts): period-derived
offset per declared indicator, with the same JS-falsy defaults. -/
def getIndicatorOffsets (indicators : List (String × IndicatorConfig)) : List ℕ :=
  indicators.foldl (fun acc nc =>
    let config := nc.2
    let t := config.type.toLower
    if t = "rsi" then acc ++ [orFalsy config.params.period 14]
    else if t = "macd" then
      acc ++ [max (orFalsy config.params.fastPeriod 12)
        (max (orFalsy config.params.slowPeriod 26) (orFalsy config.params.signalPeriod 9))]
    else if t = "bollinger" then acc ++ [orFalsy config.params.period 20]
    else if t = "sma" then acc ++ [orFalsy config.params.period 20]
    else if t = "ema" then acc ++ [orFalsy config.params.period 20]
    else acc) []

/-- Modelled from the spec: the loop start index the specification ascribes
to the backtest loop, max(all declared indicator offsets, 1), as computed by
Math.max(...offsets, 1) in StrategyManager.simulateTrades. -/
def specStartIndex (indicators : List (String × IndicatorConfig)) : ℕ :=
  (getIndicatorOffsets indicators).foldl max 1

/-- Modelled from the spec: runBacktest as the specification describes it,
identical to the source embedding except that the loop starts at
max(all declared indicator offsets, 1) instead of the fixed index 50.
Used only to compare the described behaviour against the code. -/
def runBacktestSpecStart (initialBalance : ℚ) (historicalData : List Candle)
    (strategy : Strategy) : Except String BacktestingResult :=
  if historicalData.length < 50 then
    .error "Insufficient historical data for backtesting"
  else
    let s0 := resetState initialBalance
    match calculateIndicatorSeries (historicalData.map (·.close)) strategy.indicators with
    | .error e => .error e
    | .ok series =>
      let sF := runLoop strategy series historicalData (specStartIndex strategy.indicators) s0
      .ok { trades := sF.trades, equity := sF.equity, drawdowns := sF.drawdowns
            finalBalance := sF.currentBalance, finalPosition := sF.position }

/-! Live trading service (LiveTradingService, liveTestingService.ts). -/

/-- LiveTradingService.evaluateCondition: the live analogue of the backtest
evaluator.  Crossovers require both the previous current value and the
previous target value to be present and compare previous against previous. -/
def lv_evaluateCondition (comparison : String) (currentValue targetValue : ℚ)
    (previousValue previousTargetValue : Option ℚ) : Bool :=
  if comparison = "above" then decide (currentValue > targetValue)
  else if comparison = "below" then decide (currentValue < targetValue)
  else if comparison = "crosses_above" then
    match previousValue, previousTargetValue with
    | some pv, some pt => decide (pv ≤ pt) && decide (currentValue > targetValue)
    | _, _ => false
  else if comparison = "crosses_below" then
    match previousValue, previousTargetValue with
    | some pv, some pt => decide (pv ≥ pt) && decide (currentValue < targetValue)
    | _, _ => false
  else false

/-- The five-minute connection window in milliseconds (CONNECTION_WINDOW). -/
def CONNECTION_WINDOW : Int := 5 * 60 * 1000

/-- The system-wide budget of connection attempts (MAX_CONNECTIONS). -/
def MAX_CONNECTIONS : ℕ := 300

/-- The connection-budget gate at the top of setupWebSocket: when the
connectionAttempts array already holds MAX_CONNECTIONS entries the start is
rejected with a retry-after value computed from the window and the OLDEST
recorded attempt; otherwise the current time is appended.  The source never
removes entries from connectionAttempts. -/
def setupWebSocketGate (connectionAttempts : List Int) (now : Int) :
    Option Int × List Int :=
  if MAX_CONNECTIONS ≤ connectionAttempts.length then
    (some ⌈((CONNECTION_WINDOW - (now - connectionAttempts.headD 0) : ℤ) : ℚ) / 1000⌉,
      connectionAttempts)
  else
    (none, connectionAttempts ++ [now])

/-- Modelled from the spec: the connection attempts that fall inside the
rolling five-minute window ending at now. -/
def recentAttempts (connectionAttempts : List Int) (now : Int) : List Int :=
  connectionAttempts.filter (fun t => now - t < CONNECTION_WINDOW)

/-! Helper lemmas about the ledger operations. -/

/-- Characterization of a successful entry. -/
lemma executeEntry_ok_iff {s s' : TCState} {t : Int} {p q : ℚ} :
    executeEntry s t p q = (none, s') ↔
      s.position.inPosition = false ∧
      s' = { s with position :=
        { inPosition := true, entryPrice := p, quantity := q, side := Side.long } } := by
  unfold executeEntry
  by_cases hp : s.position.inPosition <;> simp [hp, eq_comm]

/-- Characterization of a successful exit. -/
lemma executeExit_ok_iff {s s' : TCState} {t : Int} {p : ℚ} :
    executeExit s t p = (none, s') ↔
      s.position.inPosition = true ∧
      s' = { s with
        currentBalance :=
          s.currentBalance + (p - s.position.entryPrice) * s.position.quantity
        trades := s.trades ++
          [{ entryTime := t
             exitTime := t
             entryPrice := s.position.entryPrice
             exitPrice := p
             quantity := s.position.quantity
             profit := (p - s.position.entryPrice) * s.position.quantity
             profitPercentage :=
               (p - s.position.entryPrice) * s.position.quantity /
                 (s.position.entryPrice * s.position.quantity) * 100
             type := s.position.side }]
        position := { inPosition := false, entryPrice := 0, quantity := 0, side := Side.long } } := by
  unfold executeExit
  by_cases hp : s.position.inPosition <;> simp [hp, eq_comm]

/-- Invariant of reachable ledger states: the position side is long and every
logged trade is long and has equal entry and exit times. -/
lemma ledger_invariant {s : TCState} (hr : Reachable s) :
    s.position.side = Side.long ∧
      ∀ tr ∈ s.trades, tr.type = Side.long ∧ tr.entryTime = tr.exitTime := by
  induction hr with
  | init b => exact ⟨rfl, by simp [mkCore]⟩
  | entry hs hstep ih =>
    obtain ⟨-, rfl⟩ := executeEntry_ok_iff.mp hstep
    exact ⟨rfl, ih.2⟩
  | exits hs hstep ih =>
    obtain ⟨-, rfl⟩ := executeExit_ok_iff.mp hstep
    refine ⟨rfl, ?_⟩
    intro tr htr
    simp only [List.mem_append, List.mem_singleton] at htr
    rcases htr with h | rfl
    · exact ih.2 tr h
    · exact ⟨ih.1, rfl⟩

/-- Concrete reachable ledger state holding an open long position: a fresh
core with balance 10000 after entering at price 100 with quantity 2. -/
def ledgerOpenState : TCState := (executeEntry (mkCore 10000) 1 100 2).2

/-- The state after exiting ledgerOpenState at time 2 and price 110. -/
def ledgerClosedState : TCState := (executeExit ledgerOpenState 2 110).2

/-- C4: the ledger entry operation fails if and only if a position is already
open, the exit operation fails if and only if no position is open, and in
both failure cases the whole ledger state is unchanged. -/
theorem ledger_failure_modes (s : TCState) (t : Int) (p q : ℚ) :
    ((executeEntry s t p q).1.isSome ↔ s.position.inPosition = true)
    ∧ ((executeEntry s t p q).1.isSome → (executeEntry s t p q).2 = s)
    ∧ ((executeExit s t p).1.isSome ↔ s.position.inPosition = false)
    ∧ ((executeExit s t p).1.isSome → (executeExit s t p).2 = s) := by
  unfold executeEntry executeExit
  by_cases hp : s.position.inPosition <;> simp [hp]

/-- Witness for C4 at a concrete flat ledger: exiting a fresh core fails and
leaves the state unchanged. -/
theorem ledger_failure_modes_witness :
    ((executeExit (mkCore 100) 0 5).1.isSome ↔ (mkCore 100).position.inPosition = false)
    ∧ (executeExit (mkCore 100) 0 5).2 = mkCore 100 :=
  ⟨(ledger_failure_modes (mkCore 100) 0 5 5).2.2.1,
   (ledger_failure_modes (mkCore 100) 0 5 5).2.2.2 (by decide)⟩

/-- C5: every successful exit on a reachable ledger with an open position
appends exactly one trade, adds its profit to the balance, computes the
profit percentage as profit over entry exposure times 100, and the profit is
(exitPrice - entryPrice) * quantity for a long position and the negation for
a short one (the short case is vacuous: reachable positions are always long). -/
theorem ledger_exit_profit (s : TCState) (t : Int) (p : ℚ) (s' : TCState)
    (hr : Reachable s) (_hpos : s.position.inPosition = true)
    (h : executeExit s t p = (none, s')) :
    ∃ tr : LedgerTrade,
      s'.trades = s.trades ++ [tr]
      ∧ s'.currentBalance = s.currentBalance + tr.profit
      ∧ tr.profitPercentage =
          tr.profit / (s.position.entryPrice * s.position.quantity) * 100
      ∧ (s.position.side = Side.long →
          tr.profit = (p - s.position.entryPrice) * s.position.quantity)
      ∧ (s.position.side = Side.short →
          tr.profit = (s.position.entryPrice - p) * s.position.quantity) := by
  obtain ⟨-, rfl⟩ := executeExit_ok_iff.mp h
  refine ⟨_, rfl, rfl, rfl, fun _ => rfl, fun hshort => ?_⟩
  have hlong := (ledger_invariant hr).1
  rw [hshort] at hlong
  cases hlong

/-- Witness for C5: exiting the concrete open ledger at price 110 appends the
single trade with profit 20 and percentage 10. -/
theorem ledger_exit_profit_witness :
    ∃ tr : LedgerTrade,
      ledgerClosedState.trades = ledgerOpenState.trades ++ [tr]
      ∧ ledgerClosedState.currentBalance = ledgerOpenState.currentBalance + tr.profit
      ∧ tr.profitPercentage =
          tr.profit / (ledgerOpenState.position.entryPrice * ledgerOpenState.position.quantity) * 100
      ∧ (ledgerOpenState.position.side = Side.long →
          tr.profit = (110 - ledgerOpenState.position.entryPrice) * ledgerOpenState.position.quantity)
      ∧ (ledgerOpenState.position.side = Side.short →
          tr.profit = (ledgerOpenState.position.entryPrice - 110) * ledgerOpenState.position.quantity) :=
  ledger_exit_profit ledgerOpenState 2 110 ledgerClosedState
    (@Reachable.entry (mkCore 10000) ledgerOpenState 1 100 2 (Reachable.init 10000) rfl)
    (by decide) rfl

/-- C9: every reachable ledger state has a long position side, and every
trade ever appended to the trade log is long; no short position or short
trade can exist. -/
theorem ledger_always_long (s : TCState) (hr : Reachable s) :
    s.position.side = Side.long ∧ ∀ tr ∈ s.trades, tr.type = Side.long :=
  ⟨(ledger_invariant hr).1, fun tr htr => ((ledger_invariant hr).2 tr htr).1⟩

/-- Witness for C9 at the concrete post-exit ledger state. -/
theorem ledger_always_long_witness :
    ledgerClosedState.position.side = Side.long
    ∧ ∀ tr ∈ ledgerClosedState.trades, tr.type = Side.long :=
  ledger_always_long ledgerClosedState
    (@Reachable.exits ledgerOpenState ledgerClosedState 2 110
      (@Reachable.entry (mkCore 10000) ledgerOpenState 1 100 2 (Reachable.init 10000) rfl) rfl)

/-- C10: every trade in a reachable ledger has entryTime equal to exitTime,
and a successful exit appends exactly one trade whose entryTime and exitTime
are both the timestamp passed to the exit operation. -/
theorem ledger_trade_times (s : TCState) (hr : Reachable s) :
    (∀ tr ∈ s.trades, tr.entryTime = tr.exitTime)
    ∧ ∀ (t : Int) (p : ℚ) (s' : TCState), executeExit s t p = (none, s') →
        ∃ tr : LedgerTrade, s'.trades = s.trades ++ [tr]
          ∧ tr.entryTime = t ∧ tr.exitTime = t := by
  refine ⟨fun tr htr => ((ledger_invariant hr).2 tr htr).2, ?_⟩
  intro t p s' h
  obtain ⟨-, rfl⟩ := executeExit_ok_iff.mp h
  exact ⟨_, rfl, rfl, rfl⟩

/-- Witness for C10: exiting the concrete open ledger at time 2 appends one
trade whose entryTime and exitTime are both 2. -/
theorem ledger_trade_times_witness :
    ∃ tr : LedgerTrade, ledgerClosedState.trades = ledgerOpenState.trades ++ [tr]
      ∧ tr.entryTime = 2 ∧ tr.exitTime = 2 :=
  (ledger_trade_times ledgerOpenState
    (@Reachable.entry (mkCore 10000) ledgerOpenState 1 100 2 (Reachable.init 10000) rfl)).2
    2 110 ledgerClosedState rfl



/-! Claims about the condition evaluators. -/

/-- Counterexample for C1 as stated: on matched inputs (current value 20,
current target 10, previous value 5, previous target 0) the live evaluator
returns false for crosses_above, as the claim demands (5 is not below the
previous target 0), but the backtest evaluator returns true because it
compares the previous value 5 against the CURRENT target 10.  The two
evaluators are not identical and the backtest one violates the
previous-target clause. -/
theorem crossesAbove_evaluators_differ_cx :
    lv_evaluateCondition "crosses_above" 20 10 (some 5) (some 0) = false
    ∧ bt_evaluateCondition "crosses_above" 20 10 [("prev_x", 5)] "x" = true
    ∧ ¬ ((5 : ℚ) ≤ (0 : ℚ)) := by
  refine ⟨by decide, by decide, by norm_num⟩

/-- C1 amended: the live evaluator satisfies the claim as written (crossover
true only with both previous readings present, previous current against
previous target, current against current target; false without a previous
reading), while the backtest evaluator compares the previous current value
against the CURRENT target value (coinciding with the claim only when the
target is a literal), and is false when no previous reading is in the
context; crosses_below is symmetric with the opposite inequalities. -/
theorem crossover_evaluators_amended (v t : ℚ) (pv pt : Option ℚ)
    (ctx : List (String × ℚ)) (ind : String) :
    (lv_evaluateCondition "crosses_above" v t pv pt = true ↔
      ∃ p q, pv = some p ∧ pt = some q ∧ p ≤ q ∧ v > t)
    ∧ (lv_evaluateCondition "crosses_below" v t pv pt = true ↔
      ∃ p q, pv = some p ∧ pt = some q ∧ p ≥ q ∧ v < t)
    ∧ (pv = none → lv_evaluateCondition "crosses_above" v t pv pt = false)
    ∧ (bt_evaluateCondition "crosses_above" v t ctx ind = true ↔
      ∃ p, ctxGet ctx ("prev_" ++ ind) = some p ∧ p ≤ t ∧ v > t)
    ∧ (bt_evaluateCondition "crosses_below" v t ctx ind = true ↔
      ∃ p, ctxGet ctx ("prev_" ++ ind) = some p ∧ p ≥ t ∧ v < t)
    ∧ (ctxGet ctx ("prev_" ++ ind) = none →
      bt_evaluateCondition "crosses_above" v t ctx ind = false) := by
  refine ⟨?_, ?_, ?_, ?_, ?_, ?_⟩
  · unfold lv_evaluateCondition
    cases pv <;> cases pt <;> simp
  · unfold lv_evaluateCondition
    cases pv <;> cases pt <;> simp
  · intro h
    unfold lv_evaluateCondition
    cases pt <;> simp [h]
  · unfold bt_evaluateCondition
    cases h : ctxGet ctx ("prev_" ++ ind) <;> simp [h]
  · unfold bt_evaluateCondition
    cases h : ctxGet ctx ("prev_" ++ ind) <;> simp [h]
  · intro h
    unfold bt_evaluateCondition
    simp [h]

/-- Witness for the amended C1 at concrete inputs: a live crossover that is
true with previous readings 3 and 4 below the current target 10, and the
false verdict of both evaluators when the previous reading is missing. -/
theorem crossover_evaluators_amended_witness :
    lv_evaluateCondition "crosses_above" 20 10 (some 3) (some 4) = true
    ∧ lv_evaluateCondition "crosses_above" 20 10 none none = false
    ∧ bt_evaluateCondition "crosses_above" 20 10 [("y", 7)] "x" = false :=
  ⟨((crossover_evaluators_amended 20 10 (some 3) (some 4) [] "x").1).mpr
      ⟨3, 4, rfl, rfl, by norm_num, by norm_num⟩,
   (crossover_evaluators_amended 20 10 none none [] "x").2.2.1 rfl,
   (crossover_evaluators_amended 20 10 none none [("y", 7)] "x").2.2.2.2.2 (by decide)⟩

/-! Claim about the stop-loss/take-profit exit logic of the backtest loop. -/

/-- Post-state of a successful exit, as a record expression. -/
lemma executeExit_snd (s : TCState) (t : Int) (p : ℚ)
    (hpos : s.position.inPosition = true) :
    (executeExit s t p).2 = { s with
      currentBalance := s.currentBalance + (p - s.position.entryPrice) * s.position.quantity
      trades := s.trades ++
        [{ entryTime := t, exitTime := t, entryPrice := s.position.entryPrice
           exitPrice := p, quantity := s.position.quantity
           profit := (p - s.position.entryPrice) * s.position.quantity
           profitPercentage := (p - s.position.entryPrice) * s.position.quantity /
             (s.position.entryPrice * s.position.quantity) * 100
           type := s.position.side }]
      position := { inPosition := false, entryPrice := 0, quantity := 0, side := Side.long } } := by
  simp [executeExit, hpos]

/-- C3: while a position is open in the backtest loop, a candle whose low
breaches the stop-loss threshold exits at exactly the stop-loss price, no
matter what the exit conditions evaluate to; the stop-loss price is chosen
even when the take-profit threshold is breached in the same candle; and when
neither threshold is breached and an exit condition triggers, the exit price
is the candle close.  The thresholds are entryPrice * (1 - stopLoss / 100)
and entryPrice * (1 + takeProfit / 100); exactly one trade is appended, with
the stated exit price. -/
theorem backtest_exit_prices (strategy : Strategy)
    (series : List (String × List (List ℚ))) (s : TCState) (i : ℕ) (candle : Candle)
    (hpos : s.position.inPosition = true) :
    (candle.low ≤ s.position.entryPrice * (1 - strategy.riskManagement.stopLoss / 100) →
      (processCandle strategy series s i candle).trades.map (·.exitPrice) =
        s.trades.map (·.exitPrice) ++
          [s.position.entryPrice * (1 - strategy.riskManagement.stopLoss / 100)]
      ∧ (processCandle strategy series s i candle).position.inPosition = false)
    ∧ (¬ candle.low ≤ s.position.entryPrice * (1 - strategy.riskManagement.stopLoss / 100) →
        candle.high ≥ s.position.entryPrice * (1 + strategy.riskManagement.takeProfit / 100) →
        (processCandle strategy series s i candle).trades.map (·.exitPrice) =
          s.trades.map (·.exitPrice) ++
            [s.position.entryPrice * (1 + strategy.riskManagement.takeProfit / 100)])
    ∧ (¬ candle.low ≤ s.position.entryPrice * (1 - strategy.riskManagement.stopLoss / 100) →
        ¬ candle.high ≥ s.position.entryPrice * (1 + strategy.riskManagement.takeProfit / 100) →
        checkExitConditions strategy.exitConditions
          (createIndicatorContext i series candle) = true →
        (processCandle strategy series s i candle).trades.map (·.exitPrice) =
          s.trades.map (·.exitPrice) ++ [candle.close]) := by
  have hT : ∀ (x : TCState) (c : ℚ), (updateEquity x c).trades = x.trades := fun _ _ => rfl
  have hP : ∀ (x : TCState) (c : ℚ), (updateEquity x c).position = x.position := fun _ _ => rfl
  refine ⟨fun hsl => ⟨?_, ?_⟩, fun hsl htp => ?_, fun hsl htp hcond => ?_⟩
  · rw [processCandle, hT, processCandleCore]
    simp only [hpos, if_true]
    rw [if_pos (Or.inl hsl), if_pos hsl]
    rw [executeExit_snd s _ _ hpos]
    simp
  · rw [processCandle, hP, processCandleCore]
    simp only [hpos, if_true]
    rw [if_pos (Or.inl hsl), if_pos hsl]
    rw [executeExit_snd s _ _ hpos]
  · rw [processCandle, hT, processCandleCore]
    simp only [hpos, if_true]
    rw [if_pos (Or.inr (Or.inl htp)), if_neg hsl, if_pos htp]
    rw [executeExit_snd s _ _ hpos]
    simp
  · rw [processCandle, hT, processCandleCore]
    simp only [hpos, if_true]
    rw [if_pos (Or.inr (Or.inr hcond)), if_neg hsl, if_neg htp]
    rw [executeExit_snd s _ _ hpos]
    simp

/-- Concrete open ledger state for the stop-loss scenario: entered at price
100 with quantity 1. -/
def scenarioState : TCState :=
  { initialBalance := 10000, currentBalance := 10000, trades := []
    equity := [10000], drawdowns := [0]
    position := { inPosition := true, entryPrice := 100, quantity := 1, side := Side.long } }

/-- Strategy of the stop-loss scenario: stopLoss 2, takeProfit 4, and an exit
condition that is false on the scenario candle. -/
def scenarioStrategy : Strategy :=
  { indicators := []
    entryConditions := [{ indicator := "price", comparison := "above", value := 0, targetIndicator := none }]
    exitConditions := [{ indicator := "price", comparison := "below", value := 0, targetIndicator := none }]
    riskManagement := { stopLoss := 2, takeProfit := 4, maxPositionSize := 100 } }

/-- Scenario candle whose low 97 breaches the stop-loss threshold 98. -/
def scenarioCandle : Candle :=
  { time := 60, open_ := 99, high := 99, low := 97, close := 99, volume := 0 }

/-- Witness for C3: with stopLoss 2 and entry at price 100, the candle with
low 97 forces an exit at exactly 98 although the exit condition is false. -/
theorem backtest_exit_prices_witness :
    (processCandle scenarioStrategy [] scenarioState 50 scenarioCandle).trades.map (·.exitPrice)
      = [(98 : ℚ)]
    ∧ (processCandle scenarioStrategy [] scenarioState 50 scenarioCandle).position.inPosition
      = false := by
  have h := (backtest_exit_prices scenarioStrategy [] scenarioState 50 scenarioCandle rfl).1
    (by norm_num [scenarioCandle, scenarioState, scenarioStrategy])
  refine ⟨?_, h.2⟩
  rw [h.1]
  norm_num [scenarioState, scenarioStrategy]

/-! Claim about the live connection budget (C8). -/

/-- C8 failing input, evaluated on the code: with 300 recorded connection
attempts all at time 0 and a new start at time 1000000 (far outside the
five-minute window), the gate still rejects the start -- and its retry-after
value is the negative number -700 -- although not a single attempt lies
within the rolling window, where the claim requires acceptance.  The source
never removes entries from connectionAttempts, so the window bounds attempts
ever made, not attempts within the last five minutes. -/
theorem connectionBudget_stale_attempts_rejected :
    (setupWebSocketGate (List.replicate 300 0) 1000000).1 = some (-700)
    ∧ (recentAttempts (List.replicate 300 0) 1000000).length = 0 := by
  constructor
  · unfold setupWebSocketGate
    rw [if_pos (by rw [List.length_replicate]; exact Nat.le_refl 300)]
    have h0 : (List.replicate 300 (0 : Int)).headD 0 = 0 := rfl
    have h1 : ((CONNECTION_WINDOW - (1000000 - (List.replicate 300 (0 : Int)).headD 0) : ℤ) : ℚ)
        / 1000 = ((-700 : ℤ) : ℚ) := by
      rw [h0]
      norm_num [CONNECTION_WINDOW]
    show some _ = some _
    rw [h1, Int.ceil_intCast]
  · decide

/-! Loop invariants of the backtest simulation. -/

/-- A successful or failed exit never touches the equity curve. -/
lemma executeExit_snd_equity (s : TCState) (t : Int) (p : ℚ) :
    (executeExit s t p).2.equity = s.equity := by
  unfold executeExit
  split <;> rfl

/-- A successful or failed entry never touches the equity curve. -/
lemma executeEntry_snd_equity (s : TCState) (t : Int) (p q : ℚ) :
    (executeEntry s t p q).2.equity = s.equity := by
  unfold executeEntry
  split <;> rfl

/-- The decision part of the loop body leaves the equity curve unchanged. -/
lemma processCandleCore_equity (strategy : Strategy)
    (series : List (String × List (List ℚ))) (s : TCState) (i : ℕ) (candle : Candle) :
    (processCandleCore strategy series s i candle).equity = s.equity := by
  unfold processCandleCore
  dsimp only
  repeat' split
  all_goals first
    | rfl
    | exact executeExit_snd_equity _ _ _
    | exact executeEntry_snd_equity _ _ _ _

/-- The equity curve of updateEquity is the old curve with the equity point
appended. -/
lemma updateEquity_equity (s : TCState) (c : ℚ) :
    (updateEquity s c).equity = s.equity ++ [equityPoint s c] := rfl

/-- The equity point is computed from fields updateEquity does not change. -/
lemma equityPoint_updateEquity (s : TCState) (c c' : ℚ) :
    equityPoint (updateEquity s c) c' = equityPoint s c' := rfl

/-- One loop iteration appends exactly the post-decision equity point. -/
lemma processCandle_equity_eq (strategy : Strategy)
    (series : List (String × List (List ℚ))) (s : TCState) (i : ℕ) (candle : Candle) :
    (processCandle strategy series s i candle).equity =
      s.equity ++ [equityPoint (processCandleCore strategy series s i candle) candle.close] := by
  rw [processCandle, updateEquity_equity, processCandleCore_equity]

/-- After one loop iteration the last equity point equals the equity point of
the resulting state at the candle close. -/
lemma processCandle_equity_last (strategy : Strategy)
    (series : List (String × List (List ℚ))) (s : TCState) (i : ℕ) (candle : Candle) :
    (processCandle strategy series s i candle).equity.getLast? =
      some (equityPoint (processCandle strategy series s i candle) candle.close) := by
  rw [processCandle, updateEquity_equity, List.getLast?_concat, equityPoint_updateEquity]

/-- Folding the loop body over any index list grows the equity curve by one
point per index. -/
lemma foldl_equity_length (strategy : Strategy)
    (series : List (String × List (List ℚ))) (data : List Candle)
    (l : List ℕ) (s : TCState) :
    ((l.foldl (fun s i => processCandle strategy series s i (data.getD i default)) s).equity.length)
      = s.equity.length + l.length := by
  induction l generalizing s with
  | nil => rfl
  | cons a l ih =>
    rw [List.foldl_cons, ih, processCandle_equity_eq]
    simp
    omega

/-- Folding the loop body preserves the head of a nonempty equity curve. -/
lemma foldl_equity_head (strategy : Strategy)
    (series : List (String × List (List ℚ))) (data : List Candle)
    (l : List ℕ) (s : TCState) (h : s.equity ≠ []) :
    ((l.foldl (fun s i => processCandle strategy series s i (data.getD i default)) s).equity ≠ []
    ∧ (l.foldl (fun s i => processCandle strategy series s i (data.getD i default)) s).equity.head?
        = s.equity.head?) := by
  induction l generalizing s with
  | nil => exact ⟨h, rfl⟩
  | cons a l ih =>
    rw [List.foldl_cons]
    have hstep : (processCandle strategy series s a (data.getD a default)).equity ≠ [] := by
      rw [processCandle_equity_eq]
      simp
    obtain ⟨h1, h2⟩ := ih _ hstep
    refine ⟨h1, ?_⟩
    rw [h2, processCandle_equity_eq]
    cases he : s.equity with
    | nil => exact absurd he h
    | cons x xs => simp

/-- Unfolding of runBacktest on a successful run: at least 50 candles were
given, the indicator series computation succeeded, and the result is read off
the final state of the loop started at index 50 over the reset state. -/
lemma runBacktest_ok_elim {init : ℚ} {data : List Candle} {strategy : Strategy}
    {r : BacktestingResult} (h : runBacktest init data strategy = .ok r) :
    50 ≤ data.length ∧ ∃ series,
      calculateIndicatorSeries (data.map (·.close)) strategy.indicators = .ok series
      ∧ r = { trades := (runLoop strategy series data 50 (resetState init)).trades
              equity := (runLoop strategy series data 50 (resetState init)).equity
              drawdowns := (runLoop strategy series data 50 (resetState init)).drawdowns
              finalBalance := (runLoop strategy series data 50 (resetState init)).currentBalance
              finalPosition := (runLoop strategy series data 50 (resetState init)).position } := by
  unfold runBacktest at h
  split at h
  · exact absurd h (by simp)
  · next hlen =>
    refine ⟨Nat.le_of_not_lt hlen, ?_⟩
    simp only [validateKlineData, List.length_map, if_neg hlen] at h
    cases hcs : calculateIndicatorSeries (data.map (·.close)) strategy.indicators with
    | error e =>
      rw [hcs] at h
      exact absurd h (by simp)
    | ok series =>
      rw [hcs] at h
      exact ⟨series, rfl, (Except.ok.inj h).symm⟩

/-! Concrete inputs for the backtest window and equity-curve claims. -/

/-- A candle with all OHLC fields equal to p at integer time i. -/
def constCandle (i : ℕ) (p : ℚ) : Candle :=
  { time := (i : Int), open_ := p, high := p, low := p, close := p, volume := 0 }

/-- Ten constant candles: fewer than the minimum of 50. -/
def dataTen : List Candle := (List.range 10).map (fun i => constCandle i 100)

/-- Sixty constant candles at price 100. -/
def dataSixty : List Candle := (List.range 60).map (fun i => constCandle i 100)

/-- Fifty constant candles at price 100. -/
def dataFifty : List Candle := (List.range 50).map (fun i => constCandle i 100)

/-- Strategy with no indicators whose entry condition never holds. -/
def stratNoEntry : Strategy :=
  { indicators := []
    entryConditions :=
      [{ indicator := "price", comparison := "above", value := 1000000, targetIndicator := none }]
    exitConditions :=
      [{ indicator := "price", comparison := "below", value := 0, targetIndicator := none }]
    riskManagement := { stopLoss := 2, takeProfit := 4, maxPositionSize := 100 } }

/-- Strategy declaring one RSI indicator with period 50, which needs 51
candles. -/
def stratRsiFifty : Strategy :=
  { indicators := [("rsi", { type := "rsi", params := { period := some 50 } })]
    entryConditions :=
      [{ indicator := "rsi", comparison := "below", value := 30, targetIndicator := none }]
    exitConditions :=
      [{ indicator := "rsi", comparison := "above", value := 70, targetIndicator := none }]
    riskManagement := { stopLoss := 2, takeProfit := 4, maxPositionSize := 100 } }

/-- Fifty-one constant candles at 100 followed by one candle closing at 101,
whose low never breaches the wide stop-loss of stratAlwaysEnter. -/
def dataDrift : List Candle := (List.range 51).map (fun i => constCandle i 100) ++
  [{ time := 51, open_ := 100, high := 101, low := 100, close := 101, volume := 0 }]

/-- Strategy that enters immediately and never exits: entry condition always
true, exit condition never true, wide stop-loss (50 percent) and take-profit
(1000 percent). -/
def stratAlwaysEnter : Strategy :=
  { indicators := []
    entryConditions :=
      [{ indicator := "price", comparison := "above", value := 0, targetIndicator := none }]
    exitConditions :=
      [{ indicator := "price", comparison := "above", value := 1000000, targetIndicator := none }]
    riskManagement := { stopLoss := 50, takeProfit := 1000, maxPositionSize := 100 } }

set_option maxRecDepth 100000 in
/-- Counterexample for C2 as stated.  First part: with exactly 50 candles
(not fewer) and a declared RSI of period 50, runBacktest still fails, because
the indicator needs 51 candles -- so insufficient-data failure is not
equivalent to having fewer than 50 candles.  Second part: on 60 candles with
no declared indicators the claimed loop start would be max(offsets, 1) = 1,
which would append 60 equity points (one per iterated candle on top of the
initial point, as runBacktestSpecStart shows); the code appends 11, because
its loop starts at the fixed index 50. -/
theorem runBacktest_window_cx :
    (dataFifty.length = 50 ∧ (runBacktest 10000 dataFifty stratRsiFifty).isOk = false)
    ∧ ((runBacktest 10000 dataSixty stratNoEntry).toOption.map (fun r => r.equity.length)
        = some 11
      ∧ (runBacktestSpecStart 10000 dataSixty stratNoEntry).toOption.map
          (fun r => r.equity.length) = some 60
      ∧ (11 : ℕ) ≠ 60) := by
  refine ⟨⟨by decide, by with_unfolding_all rfl⟩, ?_, ?_, by decide⟩
  · with_unfolding_all rfl
  · with_unfolding_all rfl

/-- C2 amended: runBacktest rejects fewer than 50 candles with the
insufficient-data error; it can also fail with 50 or more candles when a
declared indicator cannot be computed from them; on success the indicator
series was computed up front and the loop ran over candle indices 50 to
data.length - 1, appending one equity point per iterated candle on top of
the initial point, so the equity curve has length data.length - 49. -/
theorem runBacktest_window_amended (init : ℚ) (data : List Candle) (strategy : Strategy) :
    (data.length < 50 →
      runBacktest init data strategy = .error "Insufficient historical data for backtesting")
    ∧ (∀ r, runBacktest init data strategy = .ok r →
        50 ≤ data.length ∧ r.equity.length = data.length - 49) := by
  constructor
  · intro hlt
    unfold runBacktest
    rw [if_pos hlt]
  · intro r h
    obtain ⟨h50, series, hcs, rfl⟩ := runBacktest_ok_elim h
    refine ⟨h50, ?_⟩
    dsimp only
    rw [runLoop, foldl_equity_length]
    simp only [List.length_range']
    show (resetState init).equity.length + (data.length - 50) = data.length - 49
    have : (resetState init).equity.length = 1 := rfl
    omega

set_option maxRecDepth 100000 in
/-- Witness for the amended C2: ten candles are rejected with the
insufficient-data error, and the successful sixty-candle run has an equity
curve of length 60 - 49 = 11. -/
theorem runBacktest_window_amended_witness :
    runBacktest 10000 dataTen stratNoEntry
      = .error "Insufficient historical data for backtesting"
    ∧ ∃ r, runBacktest 10000 dataSixty stratNoEntry = .ok r ∧ r.equity.length = 11 := by
  refine ⟨(runBacktest_window_amended 10000 dataTen stratNoEntry).1 (by decide), ?_⟩
  have hex : ∃ r, runBacktest 10000 dataSixty stratNoEntry = .ok r := by
    have hok : (runBacktest 10000 dataSixty stratNoEntry).isOk = true := by
      with_unfolding_all rfl
    cases hc : runBacktest 10000 dataSixty stratNoEntry with
    | ok r => exact ⟨r, rfl⟩
    | error e =>
      rw [hc] at hok
      exact Bool.noConfusion hok
  obtain ⟨r, hr⟩ := hex
  refine ⟨r, hr, ?_⟩
  have := ((runBacktest_window_amended 10000 dataSixty stratNoEntry).2 r hr).2
  rw [this]
  decide

set_option maxRecDepth 100000 in
/-- Counterexample for C7 as stated: on the sixty-drift run the strategy
enters at candle 50 and never exits, the final balance stays 10000 (entry
does not change the balance), but the last equity point is 10002 (balance
plus unrealized profit of the open position at the last close 101), so the
last equity element differs from the returned finalBalance. -/
theorem backtest_equity_last_cx :
    (runBacktest 10000 dataDrift stratAlwaysEnter).toOption.map
        (fun r => (r.equity.getLast?, r.finalBalance, r.finalPosition.inPosition))
      = some (some 10002, 10000, true)
    ∧ (10002 : ℚ) ≠ 10000 := by
  refine ⟨by with_unfolding_all rfl, by norm_num⟩

/-- C7 amended: every completed backtest has a nonempty equity curve whose
first element is the initial balance; the last element equals the final
balance whenever no position is open at the end, and equals the final
balance plus the unrealized profit of the open position at the last candle
close otherwise. -/
theorem backtest_equity_curve_amended (init : ℚ) (data : List Candle) (strategy : Strategy)
    (r : BacktestingResult) (h : runBacktest init data strategy = .ok r) :
    r.equity ≠ []
    ∧ r.equity.head? = some init
    ∧ r.equity.getLast? = some (if r.finalPosition.inPosition
        then r.finalBalance + r.finalPosition.quantity *
          ((data.getD (data.length - 1) default).close - r.finalPosition.entryPrice)
        else r.finalBalance) := by
  obtain ⟨h50, series, hcs, rfl⟩ := runBacktest_ok_elim h
  dsimp only
  rw [runLoop]
  have hne : (resetState init).equity ≠ [] := by simp [resetState, mkCore]
  obtain ⟨hnil, hhead⟩ := foldl_equity_head strategy series data
    (List.range' 50 (data.length - 50)) (resetState init) hne
  refine ⟨hnil, by rw [hhead]; rfl, ?_⟩
  cases hm : data.length - 50 with
  | zero => rfl
  | succ m =>
    rw [List.range'_concat, List.foldl_append, List.foldl_cons, List.foldl_nil]
    rw [processCandle_equity_last]
    rw [show 50 + 1 * m = data.length - 1 from by omega]
    rfl

set_option maxRecDepth 100000 in
/-- Witness for the amended C7 on the concrete sixty-drift run. -/
theorem backtest_equity_curve_amended_witness :
    ∃ r, runBacktest 10000 dataDrift stratAlwaysEnter = .ok r
      ∧ r.equity ≠ [] ∧ r.equity.head? = some 10000 := by
  have hok : (runBacktest 10000 dataDrift stratAlwaysEnter).isOk = true := by
    with_unfolding_all rfl
  cases hc : runBacktest 10000 dataDrift stratAlwaysEnter with
  | ok r =>
    have h := backtest_equity_curve_amended 10000 dataDrift stratAlwaysEnter r hc
    exact ⟨r, rfl, h.1, h.2.1⟩
  | error e =>
    rw [hc] at hok
    exact Bool.noConfusion hok

/-! Wilder-smoothing lemmas for the RSI claim. -/

/-- The Wilder recurrence started from an explicit first value over the
post-warm-up part ys of the gain or loss series. -/
def wilderAux (period : ℕ) (first : ℚ) (ys : List ℚ) : ℕ → ℚ
  | 0 => first
  | k + 1 => (wilderAux period first ys k * ((period : ℚ) - 1) + ys.getD k 0) / (period : ℚ)

/-- Appending an element does not change the recurrence below the old
length. -/
lemma wilderAux_append (period : ℕ) (first : ℚ) (ys : List ℚ) (y : ℚ) :
    ∀ k, k ≤ ys.length →
      wilderAux period first (ys ++ [y]) k = wilderAux period first ys k := by
  intro k
  induction k with
  | zero => intro _; rfl
  | succ k ih =>
    intro hk
    rw [wilderAux, wilderAux, ih (by omega)]
    rw [List.getD_append _ _ _ _ (by omega)]

/-- The fold that builds the average arrays produces exactly the table of the
Wilder recurrence, together with its last value. -/
lemma foldl_pushAvg (period : ℕ) (first : ℚ) (ys : List ℚ) :
    ys.foldl (pushAvg period) ([first], first) =
      ((List.range (ys.length + 1)).map (wilderAux period first ys),
        wilderAux period first ys ys.length) := by
  induction ys using List.reverseRecOn with
  | nil => rfl
  | append_singleton ys y ih =>
    rw [List.foldl_append, List.foldl_cons, List.foldl_nil, ih, pushAvg]
    have hlast : wilderAux period first (ys ++ [y]) (ys.length + 1) =
        (wilderAux period first ys ys.length * ((period : ℚ) - 1) + y) / (period : ℚ) := by
      rw [wilderAux, wilderAux_append period first ys y ys.length (Nat.le_refl _)]
      congr 2
      rw [List.getD]
      rw [List.get?_eq_getElem?, List.getElem?_concat_length]
      rfl
    have hmap : (List.range (ys.length + 1)).map (wilderAux period first (ys ++ [y])) =
        (List.range (ys.length + 1)).map (wilderAux period first ys) :=
      List.map_congr_left (fun k hk =>
        wilderAux_append period first ys y k (by
          have := List.mem_range.mp hk
          omega))
    dsimp only
    have h2 : (wilderAux period first ys ys.length * ((period : ℚ) - 1) + y) / (period : ℚ)
        = wilderAux period first (ys ++ [y]) ((ys ++ [y]).length) := by
      rw [show (ys ++ [y]).length = ys.length + 1 from by simp, hlast]
    have h1 : (List.range (ys.length + 1)).map (wilderAux period first ys)
          ++ [(wilderAux period first ys ys.length * ((period : ℚ) - 1) + y) / (period : ℚ)]
        = (List.range ((ys ++ [y]).length + 1)).map (wilderAux period first (ys ++ [y])) := by
      rw [show (ys ++ [y]).length + 1 = (ys.length + 1) + 1 from by simp]
      conv_rhs => rw [List.range_succ]
      rw [List.map_append, hmap, List.map_singleton, hlast]
    exact Prod.ext h1 h2

/-- On the arrays of calculateRSI the recurrence over the dropped prefix is
the specification recurrence with shifted indices. -/
lemma wilderAux_drop (period : ℕ) (xs : List ℚ) :
    ∀ k, wilderAux period ((xs.take period).sum / (period : ℚ)) (xs.drop period) k
      = wilderAvg period xs k := by
  intro k
  induction k with
  | zero => rfl
  | succ k ih =>
    rw [wilderAux, wilderAvg, ih]
    congr 2
    rw [List.getD, List.getD, List.get?_eq_getElem?, List.get?_eq_getElem?,
      List.getElem?_drop]

/-- Lengths and entries of buildAvgs. -/
lemma buildAvgs_get (period : ℕ) (first : ℚ) (ys : List ℚ) :
    (buildAvgs period first ys).length = ys.length + 1
    ∧ ∀ i, i < ys.length + 1 →
        (buildAvgs period first ys).get? i = some (wilderAux period first ys i) := by
  rw [buildAvgs, foldl_pushAvg]
  refine ⟨by simp, ?_⟩
  intro i hi
  rw [List.get?_eq_getElem?]
  rw [List.getElem?_map]
  rw [List.getElem?_range hi]
  rfl

/-- Explicit form of a successful calculateRSI run. -/
lemma calculateRSI_ok (klines : List Kline) (period : ℕ)
    (h : ¬ klines.length < period + 1) :
    calculateRSI klines period = .ok
      ((List.zipWith
          (fun gain loss => if loss = 0 then (100 : ℚ) else 100 - 100 / (1 + gain / loss))
          (buildAvgs period (((gainsOf klines).take period).sum / (period : ℚ))
            ((gainsOf klines).drop period))
          (buildAvgs period (((lossesOf klines).take period).sum / (period : ℚ))
            ((lossesOf klines).drop period))).enum.map
        (fun p => { value := round2 p.2
                    timestamp := (klines.map (·.time)).getD (p.1 + period) 0 })) := by
  rw [calculateRSI, if_neg h]
  rfl

/-- C6: calculateRSI fails exactly when fewer than period + 1 candles are
given; on success the output has one value per candle beyond the warm-up
(length = candles - period), output index i carries the timestamp of candle
i + period (so index 0 aligns to candle index period), and value i is the
two-decimal rounding of the RSI determined by the Wilder-smoothed average
gain and loss number i: the first average is the simple mean of the first
period deltas and each following average is
(previous * (period - 1) + current) / period; the value is 100 when the
average loss is 0 and 100 - 100 / (1 + avgGain / avgLoss) otherwise. -/
theorem calculateRSI_spec (period : ℕ) (_hp : 1 ≤ period) (klines : List Kline) :
    ((calculateRSI klines period).isOk = false ↔ klines.length < period + 1)
    ∧ ∀ r, calculateRSI klines period = .ok r →
        r.length = klines.length - period
        ∧ ∀ i, i < r.length →
            r.get? i = some
              { value := round2 (rsiOf (wilderAvg period (gainsOf klines) i)
                  (wilderAvg period (lossesOf klines) i))
                timestamp := (klines.map (·.time)).getD (i + period) 0 } := by
  constructor
  · by_cases hlt : klines.length < period + 1
    · rw [calculateRSI, if_pos hlt]
      exact ⟨fun _ => hlt, fun _ => rfl⟩
    · rw [calculateRSI_ok klines period hlt]
      exact iff_of_false (fun hh => Bool.noConfusion hh) hlt
  · intro r h
    by_cases hlt : klines.length < period + 1
    · rw [calculateRSI, if_pos hlt] at h
      exact absurd h (by simp)
    · rw [calculateRSI_ok klines period hlt] at h
      replace h := (Except.ok.inj h).symm
      subst h
      have hdl : (deltasOf klines).length = klines.length - 1 := by
        simp only [deltasOf, List.length_zipWith, List.length_tail, List.length_map]
        exact Nat.min_eq_left (by omega)
      have hgl : (gainsOf klines).length = klines.length - 1 := by
        rw [gainsOf, List.length_map, hdl]
      have hll : (lossesOf klines).length = klines.length - 1 := by
        rw [lossesOf, List.length_map, hdl]
      obtain ⟨hgalen, hgaget⟩ := buildAvgs_get period
        (((gainsOf klines).take period).sum / (period : ℚ)) ((gainsOf klines).drop period)
      obtain ⟨hlalen, hlaget⟩ := buildAvgs_get period
        (((lossesOf klines).take period).sum / (period : ℚ)) ((lossesOf klines).drop period)
      have hdroplen : ((gainsOf klines).drop period).length = klines.length - 1 - period := by
        rw [List.length_drop, hgl]
      have hdroplen2 : ((lossesOf klines).drop period).length = klines.length - 1 - period := by
        rw [List.length_drop, hll]
      have hzlen : (List.zipWith
          (fun gain loss => if loss = 0 then (100 : ℚ) else 100 - 100 / (1 + gain / loss))
          (buildAvgs period (((gainsOf klines).take period).sum / (period : ℚ))
            ((gainsOf klines).drop period))
          (buildAvgs period (((lossesOf klines).take period).sum / (period : ℚ))
            ((lossesOf klines).drop period))).length = klines.length - period := by
        rw [List.length_zipWith, hgalen, hlalen, hdroplen, hdroplen2]
        omega
      have hrlen : ((List.zipWith
          (fun gain loss => if loss = 0 then (100 : ℚ) else 100 - 100 / (1 + gain / loss))
          (buildAvgs period (((gainsOf klines).take period).sum / (period : ℚ))
            ((gainsOf klines).drop period))
          (buildAvgs period (((lossesOf klines).take period).sum / (period : ℚ))
            ((lossesOf klines).drop period))).enum.map
          (fun p => ({ value := round2 p.2
                       timestamp := (klines.map (·.time)).getD (p.1 + period) 0 } : RSIResult))).length
          = klines.length - period := by
        rw [List.length_map, List.enum_length, hzlen]
      refine ⟨hrlen, ?_⟩
      intro i hi
      rw [hrlen] at hi
      have hia : i < ((gainsOf klines).drop period).length + 1 := by
        rw [hdroplen]; omega
      have hib : i < ((lossesOf klines).drop period).length + 1 := by
        rw [hdroplen2]; omega
      rw [List.get?_map, List.get?_enum]
      have hz : (List.zipWith
          (fun gain loss => if loss = 0 then (100 : ℚ) else 100 - 100 / (1 + gain / loss))
          (buildAvgs period (((gainsOf klines).take period).sum / (period : ℚ))
            ((gainsOf klines).drop period))
          (buildAvgs period (((lossesOf klines).take period).sum / (period : ℚ))
            ((lossesOf klines).drop period))).get? i
          = some (rsiOf (wilderAvg period (gainsOf klines) i)
              (wilderAvg period (lossesOf klines) i)) := by
        rw [List.get?_zipWith, hgaget i hia, hlaget i hib,
          wilderAux_drop, wilderAux_drop]
        rfl
      rw [hz]
      rfl

/-- Four concrete candles (closes 10, 11, 10, 12) for the RSI witness. -/
def klinesFour : List Kline :=
  [{ time := 0, open_ := 10, high := 10, low := 10, close := 10, volume := 0, closeTime := 0 },
   { time := 1, open_ := 11, high := 11, low := 11, close := 11, volume := 0, closeTime := 1 },
   { time := 2, open_ := 10, high := 10, low := 10, close := 10, volume := 0, closeTime := 2 },
   { time := 3, open_ := 12, high := 12, low := 12, close := 12, volume := 0, closeTime := 3 }]

/-- Witness for C6 at period 2 over four candles: the run succeeds (4 is not
below 3), the output has 4 - 2 = 2 values, and value 0 carries the timestamp
of candle 2 with the Wilder-average RSI value. -/
theorem calculateRSI_spec_witness :
    ((calculateRSI klinesFour 2).isOk = false ↔ klinesFour.length < 2 + 1)
    ∧ ∃ r, calculateRSI klinesFour 2 = .ok r ∧ r.length = 2
        ∧ r.get? 0 = some
            { value := round2 (rsiOf (wilderAvg 2 (gainsOf klinesFour) 0)
                (wilderAvg 2 (lossesOf klinesFour) 0))
              timestamp := (klinesFour.map (·.time)).getD (0 + 2) 0 } := by
  have h := calculateRSI_spec 2 (by decide) klinesFour
  refine ⟨h.1, ?_⟩
  have hok : (calculateRSI klinesFour 2).isOk = true := by with_unfolding_all rfl
  cases hc : calculateRSI klinesFour 2 with
  | error e =>
    rw [hc] at hok
    exact Bool.noConfusion hok
  | ok r =>
    obtain ⟨hlen, hget⟩ := h.2 r hc
    refine ⟨r, rfl, by rw [hlen]; decide, ?_⟩
    exact hget 0 (by rw [hlen]; decide)

end TradeBot
